import Mathlib

/-!
Shallow embedding of the loan-application intake pipeline of the
`server-beforesalary` repository (Express/Mongoose, JavaScript), centred on
`POST /api/applications` in `src/routes/application.routes.js`, the
`Application` schema pre-save hook (application numbering), the `Loan`
schema (interest-rate band) and `src/utils/sendEmail.js`.

JavaScript strings are modelled by Lean `String`; the few JS string
operations the code uses (`startsWith`, prefix removal via `replace`,
`trim`, `padStart`, template-literal concatenation) are defined below over
the underlying character list, which matches JS semantics for the
code-point sequences involved.  JS numbers are idealized as exact rationals
(`ℚ`) plus explicit non-finite values (`NaN`, `±Infinity`); `Math.pow` and
the string→number / number→string conversions performed by the JS runtime
are passed in as parameters (`JsPrims`) since they are runtime primitives,
not code of this repository.
-/

namespace BeforeSalary

/-! ## JS string primitives (character-list models) -/

/-- JS `String.prototype.startsWith(p)`: `p.data` is a list prefix of `s.data`. -/
def jsStartsWith (s p : String) : Bool :=
  List.isPrefixOf p.data s.data

/-- Dropping the first `n` characters of a string (model of
`s.replace(p, '')` when `p` is known to occur exactly at position 0,
which is how `application.routes.js` uses `replace` after a `startsWith`
guard). -/
def strDropChars (s : String) (n : ℕ) : String :=
  ⟨s.data.drop n⟩

/-- JS `String.prototype.trim()`: strip whitespace from both ends. -/
def jsTrim (s : String) : String :=
  ⟨((s.data.dropWhile Char.isWhitespace).reverse.dropWhile Char.isWhitespace).reverse⟩

/-- JS `String.prototype.padStart(n, c)`: left-pad to length `n` with `c`
(no-op when the string is already at least that long). -/
def jsPadStart (s : String) (n : ℕ) (c : Char) : String :=
  ⟨List.replicate (n - s.data.length) c ++ s.data⟩

/-! ## JS numbers

A JS number is either a finite value (idealized as an exact rational) or
one of the non-finite values `NaN`, `+Infinity`, `-Infinity`.  The intake
code distinguishes these through `isNaN` / `Number.isFinite` / ordering /
truthiness, all modelled below. -/

inductive JsNum where
  | fin : ℚ → JsNum
  | nan : JsNum
  | inf : JsNum
  | ninf : JsNum
deriving DecidableEq

/-- JS `isNaN` (on an already-converted number). -/
def JsNum.isNaN : JsNum → Bool
  | .nan => true
  | _ => false

/-- JS `Number.isFinite`. -/
def JsNum.isFinite : JsNum → Bool
  | .fin _ => true
  | _ => false

/-- JS `x <= 0` on a number: `NaN` compares false, `-Infinity <= 0` is true. -/
def JsNum.le0 : JsNum → Bool
  | .fin q => decide (q ≤ 0)
  | .nan => false
  | .inf => false
  | .ninf => true

/-- JS truthiness of a number: `0` and `NaN` are falsy. -/
def JsNum.truthy : JsNum → Bool
  | .fin q => decide (q ≠ 0)
  | .nan => false
  | _ => true

/-! ## Raw (loosely typed) request values

A field of the multipart-decoded request body, as the validation code sees
it: absent (`undefined`), `null`, a string, or a number.  (The intake
checks we model only ever compare these against `undefined`/`null`/`''`
and coerce them with `Number(...)`, so other JS shapes are not needed.) -/

inductive RawVal where
  | missing : RawVal
  | null : RawVal
  | str : String → RawVal
  | num : JsNum → RawVal
deriving DecidableEq

/-- The presence check `x === undefined || x === null || x === ''` used for
the loan amount and tenure (application.routes.js lines 82, 90). -/
def RawVal.isAbsent : RawVal → Bool
  | .missing => true
  | .null => true
  | .str s => decide (s = "")
  | .num _ => false

/-- The nullish test underlying `a ?? b` (only `undefined` and `null`). -/
def RawVal.isNullish : RawVal → Bool
  | .missing => true
  | .null => true
  | _ => false

/-- JS `a ?? b`. -/
def RawVal.coalesce (a b : RawVal) : RawVal :=
  if a.isNullish then b else a

/-! ## Runtime primitives passed as parameters -/

/-- The JS runtime primitives the intake handler calls: `Number()` on a
string, template-literal rendering of a number, and `Math.pow`.  They are
parameters of the embedding (idealized to exact rational arithmetic); the
theorems that depend on `Math.pow` assume only that it agrees with exact
powers at natural-number exponents, which is the scope of every claim
about the EMI. -/
structure JsPrims where
  parseNum : String → JsNum
  showNum : JsNum → String
  pow : ℚ → ℚ → ℚ

/-- JS `Number(x)` on a raw request value: `Number(undefined) = NaN`,
`Number(null) = 0`, strings go through the runtime parser. -/
def toNumber (js : JsPrims) : RawVal → JsNum
  | .missing => .nan
  | .null => .fin 0
  | .str s => js.parseNum s
  | .num j => j

/-- Template-literal rendering of a raw value (used in the interpolated
validation error messages). -/
def rawToString (js : JsPrims) : RawVal → String
  | .missing => "undefined"
  | .null => "null"
  | .str s => s
  | .num j => js.showNum j

/-! ## Uploaded files and documents -/

/-- One file of the uploaded multipart batch, as delivered by the upload
middleware: multer field name, original client filename, stored filename. -/
structure UFile where
  fieldname : String
  originalname : String
  filename : String
deriving DecidableEq

/-- A document record as pushed into the application's `documents` array. -/
structure Document where
  type : String
  name : String
  url : String
  status : String
deriving DecidableEq

/-- The reserved dynamic-field marker (`'dynamicFiles_'`). -/
def dynMarker : String := "dynamicFiles_"

/-! ## File grouping (application.routes.js lines 16-37)

`req.files.forEach` splits the batch into two plain JS objects keyed by
field name (`files` for static fields, `dynamicFiles` for fields whose
name starts with `dynamicFiles_`, keyed by the name with the marker
removed).  A JS object whose keys are inserted progressively is modelled
as an association list in insertion order. -/

abbrev Groups := List (String × List UFile)

/-- Append file `f` to the group keyed `key`, creating the group at the end
if absent (the `if (!files[k]) files[k] = []; files[k].push(file)` idiom). -/
def addFile (gs : Groups) (key : String) (f : UFile) : Groups :=
  match gs with
  | [] => [(key, [f])]
  | (k, fs) :: rest =>
    if k = key then (k, fs ++ [f]) :: rest else (k, fs) :: addFile rest key f

/-- One step of the `req.files.forEach` loop. -/
def organizeStep (acc : Groups × Groups) (f : UFile) : Groups × Groups :=
  if jsStartsWith f.fieldname dynMarker then
    (acc.1, addFile acc.2 (strDropChars f.fieldname dynMarker.data.length) f)
  else
    (addFile acc.1 f.fieldname f, acc.2)

/-- The full grouping pass: `(files, dynamicFiles)`. -/
def organizeFiles (batch : List UFile) : Groups × Groups :=
  batch.foldl organizeStep ([], [])

/-- Reading `files[k]` (first — and, by construction, only — entry with
that key), with `undefined` treated as the empty group (the `(arr || [])` /
`files.selfie && files.selfie.length > 0` idioms). -/
def getGroup (gs : Groups) (k : String) : List UFile :=
  match gs with
  | [] => []
  | (k2, fs) :: rest => if k = k2 then fs else getGroup rest k

/-- Document built for file `f` with document type `ty`
(application.routes.js lines 149-154: name from the original filename, URL
`/uploads/` + stored filename, status `Pending`). -/
def mkDoc (ty : String) (f : UFile) : Document :=
  { type := ty, name := f.originalname, url := "/uploads/" ++ f.filename,
    status := "Pending" }

/-- `pushGroup(arr, type)` (lines 147-156). -/
def pushGroup (fs : List UFile) (ty : String) : List Document :=
  fs.map (mkDoc ty)

/-- The five fixed document groups in their push order (lines 157-161). -/
def fixedDocs (files : Groups) : List Document :=
  pushGroup (getGroup files "idProof") "ID" ++
  pushGroup (getGroup files "addressProof") "Address" ++
  pushGroup (getGroup files "incomeProof") "Income" ++
  pushGroup (getGroup files "bankStatement") "Bank Statement" ++
  pushGroup (getGroup files "otherDocuments") "Other"

/-- The selfie document: only the first file under `selfie` (lines 162-171). -/
def selfieDocs (files : Groups) : List Document :=
  match getGroup files "selfie" with
  | [] => []
  | f :: _ => [mkDoc "Selfie" f]

/-! ## JS object key enumeration

`Object.keys` enumerates integer-indexed keys (canonical decimal strings
of integers `0 ≤ n < 2^32 − 1`) first, in ascending numeric order, and the
remaining string keys in insertion order (ECMAScript
`OrdinaryOwnPropertyKeys`).  The dynamic-document pass iterates with
`Object.keys(dynamicFiles).forEach`, so this ordering is observable. -/

/-- Numeric value of a digit string. -/
def digitsToNat (l : List Char) : ℕ :=
  l.foldl (fun a c => a * 10 + (c.toNat - 48)) 0

/-- Whether a string is an ECMAScript array index: the canonical decimal
form (no leading zeros) of an integer below `2^32 − 1`. -/
def isArrayIndex (s : String) : Bool :=
  !s.data.isEmpty && s.data.all Char.isDigit &&
    (s.data = ['0'] || s.data.head? ≠ some '0') &&
    digitsToNat s.data < 4294967295

/-- Sort array-index keys ascending by numeric value. -/
def sortIdxKeys (l : List String) : List String :=
  l.insertionSort fun a b => digitsToNat a.data ≤ digitsToNat b.data

/-- `Object.keys` on an object whose keys were inserted in the given order. -/
def jsObjectKeys (ks : List String) : List String :=
  sortIdxKeys (ks.filter (fun k => isArrayIndex k)) ++
    ks.filter (fun k => !isArrayIndex k)

/-- Documents produced for the dynamic file groups, iterated in
`Object.keys` order (lines 177-186). -/
def dynamicDocs (dyn : Groups) : List Document :=
  (jsObjectKeys (dyn.map Prod.fst)).flatMap fun name =>
    (getGroup dyn name).map (mkDoc ("Dynamic: " ++ name))

/-! ## Dynamic fields map -/

/-- A `{name, url}` file reference stored into `dynamicFields` (lines 191-194). -/
structure FileRef where
  name : String
  url : String
deriving DecidableEq

/-- A value held under a key of `dynamicFields`: either a list of file
references written by the classifier, or whatever value (of any JS shape,
modelled opaquely) the submitted body carried under that key. -/
inductive DynVal where
  | files : List FileRef → DynVal
  | raw : String → DynVal
deriving DecidableEq

/-- JS property assignment on an object modelled as an insertion-ordered
association list: replace in place if present, append if absent. -/
def setVal (m : List (String × DynVal)) (k : String) (v : DynVal) :
    List (String × DynVal) :=
  match m with
  | [] => [(k, v)]
  | (k2, v2) :: rest =>
    if k2 = k then (k2, v) :: rest else (k2, v2) :: setVal rest k v

/-- JS property read `dynamicFields[k]` (`none` = `undefined`). -/
def getDyn (m : List (String × DynVal)) (k : String) : Option DynVal :=
  match m with
  | [] => none
  | (k2, v) :: rest => if k = k2 then some v else getDyn rest k

/-- The file reference recorded for an uploaded file. -/
def fileRefOf (f : UFile) : FileRef :=
  { name := f.originalname, url := "/uploads/" ++ f.filename }

/-- The `Object.keys(dynamicFiles).forEach` pass over `dynamicFields`
(lines 177-195): for every dynamic group, the key is overwritten with the
list of file references for that group (the interim `= []` initialization
is immediately overwritten by the `map` assignment and has no net effect). -/
def applyDynGroups (dfields : List (String × DynVal)) (dyn : Groups) :
    List (String × DynVal) :=
  (jsObjectKeys (dyn.map Prod.fst)).foldl
    (fun m name =>
      setVal m name (DynVal.files ((getGroup dyn name).map fileRefOf)))
    dfields

/-- Combined output of the document-classification part of the handler. -/
structure ClassifierOut where
  documents : List Document
  dynFields : List (String × DynVal)
deriving DecidableEq

/-- The whole document-classification pass (lines 16-37 and 145-195):
group the batch, emit the fixed groups, the selfie, then the dynamic
groups, and rewrite `dynamicFields`. -/
def classify (batch : List UFile) (dfields0 : List (String × DynVal)) :
    ClassifierOut :=
  let gs := organizeFiles batch
  { documents := fixedDocs gs.1 ++ selfieDocs gs.1 ++ dynamicDocs gs.2,
    dynFields := applyDynGroups dfields0 gs.2 }

/-! ## Loan products (src/unnamed/part_004, `Loan.model.js`) -/

/-- The interest-rate band of a loan product.  The schema marks all three
required, but the route reads them through optional chaining and nullish
coalescing, so they are modelled as optional. -/
structure InterestRate where
  min : Option ℚ
  max : Option ℚ
  default : Option ℚ
deriving DecidableEq

/-- The slice of a loan product the intake handler reads. -/
structure Loan where
  type : String
  interestRate : Option InterestRate
deriving DecidableEq

/-- `loan.interestRate?.default ?? loan.interestRate?.min ?? 0`
(application.routes.js line 136). -/
def resolveAnnualRate (loan : Loan) : ℚ :=
  match loan.interestRate with
  | none => 0
  | some ir =>
    match ir.default with
    | some d => d
    | none =>
      match ir.min with
      | some m => m
      | none => 0

/-! ## The intake pipeline (POST /api/applications) -/

/-- The loan-details sub-object after normalization, as the validation code
sees it: `applicationData.loanDetails` may be falsy (then `|| {}` yields an
empty object), a truthy non-object (e.g. a string that failed JSON
parsing), or an object carrying the four recognised keys plus a record of
whether `Object.keys(ld)` is non-empty. -/
inductive LDVal where
  | falsy : LDVal
  | nonObjTruthy : String → LDVal
  | obj : RawVal → RawVal → RawVal → RawVal → Bool → LDVal
deriving DecidableEq

/-- `loanAmount` key of an `obj` loan-details bag. -/
def LDVal.amount : LDVal → RawVal
  | .obj a _ _ _ _ => a
  | _ => .missing

/-- `principal` key. -/
def LDVal.principal : LDVal → RawVal
  | .obj _ p _ _ _ => p
  | _ => .missing

/-- `loanTenure` key. -/
def LDVal.tenure : LDVal → RawVal
  | .obj _ _ t _ _ => t
  | _ => .missing

/-- `tenureMonths` key. -/
def LDVal.tenureMonths : LDVal → RawVal
  | .obj _ _ _ m _ => m
  | _ => .missing

/-- Whether the loan-details check `!ld || typeof ld !== 'object' ||
Object.keys(ld).length === 0` (line 69) rejects the value. -/
def LDVal.rejected : LDVal → Bool
  | .falsy => true
  | .nonObjTruthy _ => true
  | .obj _ _ _ _ hasKeys => !hasKeys

/-- The request, as the handler sees it after the JSON-field normalization
(lines 41-46) has already run: the uploaded batch, whether
`loanId || loanProductId` is present and a valid ObjectId (line 55), the
result of `Loan.findById` (line 59), the loan-details bag, the submitted
`dynamicFields` object, the employment fields the validator reads
(lines 197-215), and the applicant email used for the notification.
`personalInfo`/`address` are pass-through data no claim concerns and are
elided. -/
structure SubmitInput where
  files : List UFile
  loanIdValid : Bool
  loan : Option Loan
  loanDetails : LDVal
  dynamicFields : List (String × DynVal)
  employmentType : Option String
  monthlyIncome : RawVal
  personalEmail : Option String
deriving DecidableEq

/-- An error response: HTTP status and message. -/
structure ErrResp where
  status : ℕ
  message : String
deriving DecidableEq

/-- The persisted `loanDetails` sub-document (line 236-241). -/
structure LoanDetailsRec where
  loanAmount : ℚ
  loanTenure : ℚ
  interestRate : ℚ
  emi : ℤ
deriving DecidableEq

/-- The created application record (line 229-245), restricted to the
fields the claims concern. -/
structure AppRecord where
  loanType : String
  loanDetails : LoanDetailsRec
  documents : List Document
  dynamicFields : List (String × DynVal)
  employmentType : String
  monthlyIncome : JsNum
  status : String
deriving DecidableEq

/-- Amount/tenure validation (lines 78-134): presence of each, numeric
conversion with the `isNaN(x) || !Number.isFinite(x)` check for each, then
positivity of each — in exactly the code's interleaved order.  Returns the
validated pair `(loanAmount, loanTenure)`. -/
def validateAmountTenure (js : JsPrims) (ld : LDVal) :
    Except ErrResp (ℚ × ℚ) :=
  let loanAmountRaw := ld.amount.coalesce ld.principal
  let loanTenureRaw := ld.tenure.coalesce ld.tenureMonths
  if loanAmountRaw.isAbsent then
    .error ⟨400, "Loan amount is required. Please enter a valid loan amount."⟩
  else if loanTenureRaw.isAbsent then
    .error ⟨400,
      "Loan tenure is required. Please enter a valid loan tenure in months."⟩
  else
    match toNumber js loanAmountRaw, toNumber js loanTenureRaw with
    | .fin amount, tenureNum =>
      match tenureNum with
      | .fin tenure =>
        if amount ≤ 0 then
          .error ⟨400, "Loan amount must be greater than 0. Received: " ++
            js.showNum (.fin amount)⟩
        else if tenure ≤ 0 then
          .error ⟨400, "Loan tenure must be greater than 0 months. Received: "
            ++ js.showNum (.fin tenure)⟩
        else .ok (amount, tenure)
      | _ =>
        .error ⟨400, "Loan tenure must be a valid number. Received: " ++
          rawToString js loanTenureRaw⟩
    | _, _ =>
      .error ⟨400, "Loan amount must be a valid number. Received: " ++
        rawToString js loanAmountRaw⟩

/-- The employment-type check of line 201:
`!employmentInfo.employmentType || employmentInfo.employmentType.trim() === ''`
(an absent or falsy value, or one that is blank after trimming). -/
def empTypeFails (et : Option String) : Bool :=
  match et with
  | none => true
  | some s => (s = "") || (jsTrim s = "")

/-- The monthly-income check of line 210:
`!monthlyIncome || isNaN(monthlyIncome) || monthlyIncome <= 0` on
`Number(employmentInfo.monthlyIncome)`. -/
def incomeFails (js : JsPrims) (mi : RawVal) : Bool :=
  let n := toNumber js mi
  !n.truthy || n.isNaN || n.le0

/-- Employment validation (lines 197-215): `employmentType` must be truthy
and non-blank after trimming; `Number(monthlyIncome)` must be truthy, not
`NaN`, and not `≤ 0`.  Returns the trimmed type and the converted income. -/
def validateEmployment (js : JsPrims) (inp : SubmitInput) :
    Except ErrResp (String × JsNum) :=
  if empTypeFails inp.employmentType then
    .error ⟨400,
      "Employment type is required. Please select your employment type."⟩
  else if incomeFails js inp.monthlyIncome then
    .error ⟨400,
      "Monthly income is required and must be a valid positive number."⟩
  else
    .ok (jsTrim (inp.employmentType.getD ""), toNumber js inp.monthlyIncome)

/-- The EMI computed at lines 136-143 for the validated amount and tenure:
`monthlyRate > 0 ? Math.round(P·r·pow(1+r,n)/(pow(1+r,n)−1)) : 0`.
`Math.round` rounds halves toward `+∞`, as does Mathlib's `round`. -/
def emiOf (js : JsPrims) (loanAmount loanTenure annualRate : ℚ) : ℤ :=
  let monthlyRate := annualRate / 100 / 12
  if 0 < monthlyRate then
    round (loanAmount * monthlyRate * js.pow (1 + monthlyRate) loanTenure /
      (js.pow (1 + monthlyRate) loanTenure - 1))
  else 0

/-- The full intake handler up to (and including) persisting the
application (lines 54-245), with every early `return res.status(...)`
mapped to `.error`. -/
def submitCore (js : JsPrims) (inp : SubmitInput) : Except ErrResp AppRecord :=
  if !inp.loanIdValid then .error ⟨400, "Valid loanId required"⟩
  else
    match inp.loan with
    | none => .error ⟨404, "Loan not found"⟩
    | some loan =>
      if inp.loanDetails.rejected then
        .error ⟨400,
          "Loan details are required. Please provide loan amount and tenure."⟩
      else
        match validateAmountTenure js inp.loanDetails with
        | .error e => .error e
        | .ok (loanAmount, loanTenure) =>
          let annualRate := resolveAnnualRate loan
          let emi := emiOf js loanAmount loanTenure annualRate
          let cls := classify inp.files inp.dynamicFields
          match validateEmployment js inp with
          | .error e => .error e
          | .ok (et, mi) =>
            .ok { loanType := loan.type,
                  loanDetails := ⟨loanAmount, loanTenure, annualRate, emi⟩,
                  documents := cls.documents,
                  dynamicFields := cls.dynFields,
                  employmentType := et,
                  monthlyIncome := mi,
                  status := "Submitted" }

/-! ## Notification dispatch (src/utils/sendEmail.js) and the route tail -/

/-- The SMTP-related process environment: `EMAIL_HOST`, `EMAIL_PORT`,
`EMAIL_USER`, `EMAIL_PASS` (`none` = unset, `some ""` = set but empty). -/
structure SmtpEnv where
  host : Option String
  port : Option String
  user : Option String
  pass : Option String
deriving DecidableEq

/-- Whether a required variable passes the `preflight` check (it lands in
neither the `missing` nor the `empty` list, both computed from falsiness
of `process.env[k]` resp. equality with `''`). -/
def envSet : Option String → Bool
  | none => false
  | some s => !(s = "")

/-- `preflight().ok` (sendEmail.js lines 59-68). -/
def preflightOk (env : SmtpEnv) : Bool :=
  envSet env.host && envSet env.port && envSet env.user && envSet env.pass

/-- The outcome of the external `transporter.sendMail` call: resolved with
a message id, or rejected with an error message. -/
inductive SendOutcome where
  | sent : String → SendOutcome
  | errored : String → SendOutcome
deriving DecidableEq

/-- The value `sendEmail` resolves with. -/
structure EmailResult where
  success : Bool
  error : Option String
deriving DecidableEq

/-- `sendEmail` (sendEmail.js lines 71-107).  Every failure mode — a failed
preflight or a rejected `sendMail` — is caught and returned as a value
with `success: false`; the function never throws.  (The message payload
does not influence which branch is taken, so it is not a parameter.) -/
def sendEmail (env : SmtpEnv) (outcome : SendOutcome) : EmailResult :=
  if !preflightOk env then
    { success := false, error := some "SMTP config incomplete" }
  else
    match outcome with
    | .sent _ => { success := true, error := none }
    | .errored m => { success := false, error := some m }

/-- An HTTP response of the route, reduced to the claim-relevant parts. -/
structure HttpResp where
  status : ℕ
  success : Bool
  message : String
deriving DecidableEq

/-- The whole `POST /api/applications` handler (lines 14-305): after a
successful create, `await sendEmail({...})` is executed and its resolved
value is discarded (lines 258-263) before the unconditional 201 response
(lines 265-269). -/
def handleSubmit (js : JsPrims) (env : SmtpEnv) (outcome : SendOutcome)
    (inp : SubmitInput) : HttpResp :=
  match submitCore js inp with
  | .error e => { status := e.status, success := false, message := e.message }
  | .ok _application =>
    let _emailResult := sendEmail env outcome
    { status := 201, success := true, message := "Application submitted successfully" }

/-! ## Application numbering (src/unnamed/part_005, `applicationSchema.pre('save')`) -/

/-- `APP${String(count + 1).padStart(6, '0')}` where `count` is
`countDocuments()` at save time. -/
def formatAppNumber (count : ℕ) : String :=
  "APP" ++ jsPadStart (toString (count + 1)) 6 '0'

/-- Falsiness of `this.applicationNumber` (a string field that may be
unset): `undefined` and `''` are falsy. -/
def appNumberFalsy : Option String → Bool
  | none => true
  | some s => decide (s = "")

/-- The pre-save hook: assign the number iff it is falsy and the status is
not `'Draft'`. -/
def preSaveHook (appNumber : Option String) (status : String) (count : ℕ) :
    Option String :=
  if appNumberFalsy appNumber && !(status = "Draft") then
    some (formatAppNumber count)
  else appNumber

/-- The `applicationNumber` after a sequence of saves of one application,
each save described by the document's status at that save and the
collection count `countDocuments()` read at that save.  A new application
starts with the field unset. -/
def runSaves (saves : List (String × ℕ)) : Option String :=
  saves.foldl (fun a p => preSaveHook a p.1 p.2) none

/-! ## Field normalizer (application.routes.js lines 41-46) -/

/-- A value of the request body before normalization: either text (a
JSON-encoded blob from the multipart form) or an already-structured
non-string value, modelled opaquely. -/
inductive BodyVal where
  | str : String → BodyVal
  | structured : String → BodyVal
deriving DecidableEq

/-- The five keys the normalizer touches. -/
def jsonFields : List String :=
  ["personalInfo", "address", "employmentInfo", "loanDetails", "dynamicFields"]

/-- One field: `if typeof v === 'string' try v = JSON.parse(v) catch ignore`.
`JSON.parse` is the external runtime parser, passed in as `parse`
(`none` models a thrown `SyntaxError`, swallowed by the empty catch). -/
def normalizeField (parse : String → Option BodyVal) (v : BodyVal) : BodyVal :=
  match v with
  | .str s => (parse s).getD (.str s)
  | v => v

/-- In-place update of key `k` of the body object. -/
def normalizeKey (parse : String → Option BodyVal)
    (body : List (String × BodyVal)) (k : String) : List (String × BodyVal) :=
  body.map fun p => if p.1 = k then (p.1, normalizeField parse p.2) else p

/-- The whole normalization loop over the five keys. -/
def normalizeBody (parse : String → Option BodyVal)
    (body : List (String × BodyVal)) : List (String × BodyVal) :=
  jsonFields.foldl (normalizeKey parse) body

/-- JS property read `applicationData[k]` (`none` = `undefined`). -/
def getBody (body : List (String × BodyVal)) (k : String) : Option BodyVal :=
  match body with
  | [] => none
  | (k2, v) :: rest => if k = k2 then some v else getBody rest k

/-! ## Ordered-check views of the validator

`firstFailing` returns the error of the first violated check of an ordered
list.  `checkList` lists the checks in the order the code runs them
(amount presence, tenure presence, amount numeric, tenure numeric, amount
positive, tenure positive); `specCheckList` lists them in the order claim
C3 states them (the amount fully validated before the tenure is looked
at). -/

def firstFailing : List (Bool × ErrResp) → Option ErrResp
  | [] => none
  | (b, e) :: rest => if b then some e else firstFailing rest

/-- The error part of the handler's outcome. -/
def errPart : Except ErrResp AppRecord → Option ErrResp
  | .error e => some e
  | .ok _ => none

/-- The validator's checks in the order the code runs them. -/
def checkList (js : JsPrims) (inp : SubmitInput) : List (Bool × ErrResp) :=
  let aRaw := inp.loanDetails.amount.coalesce inp.loanDetails.principal
  let tRaw := inp.loanDetails.tenure.coalesce inp.loanDetails.tenureMonths
  let aNum := toNumber js aRaw
  let tNum := toNumber js tRaw
  [ (!inp.loanIdValid, ⟨400, "Valid loanId required"⟩),
    (inp.loan.isNone, ⟨404, "Loan not found"⟩),
    (inp.loanDetails.rejected,
      ⟨400, "Loan details are required. Please provide loan amount and tenure."⟩),
    (aRaw.isAbsent,
      ⟨400, "Loan amount is required. Please enter a valid loan amount."⟩),
    (tRaw.isAbsent,
      ⟨400, "Loan tenure is required. Please enter a valid loan tenure in months."⟩),
    (!aNum.isFinite,
      ⟨400, "Loan amount must be a valid number. Received: " ++ rawToString js aRaw⟩),
    (!tNum.isFinite,
      ⟨400, "Loan tenure must be a valid number. Received: " ++ rawToString js tRaw⟩),
    (aNum.le0,
      ⟨400, "Loan amount must be greater than 0. Received: " ++ js.showNum aNum⟩),
    (tNum.le0,
      ⟨400, "Loan tenure must be greater than 0 months. Received: " ++ js.showNum tNum⟩),
    (empTypeFails inp.employmentType,
      ⟨400, "Employment type is required. Please select your employment type."⟩),
    (incomeFails js inp.monthlyIncome,
      ⟨400, "Monthly income is required and must be a valid positive number."⟩) ]

/-- The checks in the order claim C3 states them: rule 3 (loan amount
present, numeric, finite, positive) entirely before rule 4 (the same for
the tenure). -/
def specCheckList (js : JsPrims) (inp : SubmitInput) : List (Bool × ErrResp) :=
  let aRaw := inp.loanDetails.amount.coalesce inp.loanDetails.principal
  let tRaw := inp.loanDetails.tenure.coalesce inp.loanDetails.tenureMonths
  let aNum := toNumber js aRaw
  let tNum := toNumber js tRaw
  [ (!inp.loanIdValid, ⟨400, "Valid loanId required"⟩),
    (inp.loan.isNone, ⟨404, "Loan not found"⟩),
    (inp.loanDetails.rejected,
      ⟨400, "Loan details are required. Please provide loan amount and tenure."⟩),
    (aRaw.isAbsent,
      ⟨400, "Loan amount is required. Please enter a valid loan amount."⟩),
    (!aNum.isFinite,
      ⟨400, "Loan amount must be a valid number. Received: " ++ rawToString js aRaw⟩),
    (aNum.le0,
      ⟨400, "Loan amount must be greater than 0. Received: " ++ js.showNum aNum⟩),
    (tRaw.isAbsent,
      ⟨400, "Loan tenure is required. Please enter a valid loan tenure in months."⟩),
    (!tNum.isFinite,
      ⟨400, "Loan tenure must be a valid number. Received: " ++ rawToString js tRaw⟩),
    (tNum.le0,
      ⟨400, "Loan tenure must be greater than 0 months. Received: " ++ js.showNum tNum⟩),
    (empTypeFails inp.employmentType,
      ⟨400, "Employment type is required. Please select your employment type."⟩),
    (incomeFails js inp.monthlyIncome,
      ⟨400, "Monthly income is required and must be a valid positive number."⟩) ]

/-! ## Spec-side document order (claim C7) -/

/-- Dynamic-group documents in the order the field names were first
encountered in the batch (which is the insertion order of the group keys):
the order claim C7 asserts. -/
def dynamicDocsClaimed (dyn : Groups) : List Document :=
  (dyn.map Prod.fst).flatMap fun name =>
    (getGroup dyn name).map (mkDoc ("Dynamic: " ++ name))

/-- The full document list in the order claim C7 asserts. -/
def claimedDocs (batch : List UFile) : List Document :=
  let gs := organizeFiles batch
  fixedDocs gs.1 ++ selfieDocs gs.1 ++ dynamicDocsClaimed gs.2

/-- The files of the batch uploaded under dynamic field name `name`. -/
def dynFilesFor (batch : List UFile) (name : String) : List UFile :=
  batch.filter fun f => f.fieldname = dynMarker ++ name

/-! ## Concrete instances used by counterexamples and witnesses -/

/-- Runtime primitives for counterexamples: every string parses to `NaN`,
numbers render as `"?"`, `Math.pow` is a stub (never forced on the paths
evaluated). -/
def cJs : JsPrims :=
  { parseNum := fun _ => .nan, showNum := fun _ => "?", pow := fun _ _ => 0 }

/-- A loan product with `interestRate = {min: 10, max: 20, default: 12}`. -/
def cLoan : Loan :=
  { type := "Personal", interestRate := some ⟨some 10, some 20, some 12⟩ }

/-- Submission with a non-positive loan amount (−5) and a non-numeric
tenure (`"abc"`): the input of claim C3's own example. -/
def cInpOrder : SubmitInput :=
  { files := [], loanIdValid := true, loan := some cLoan,
    loanDetails := .obj (.num (.fin (-5))) .missing (.str "abc") .missing true,
    dynamicFields := [], employmentType := some "Salaried",
    monthlyIncome := .num (.fin 50000), personalEmail := none }

/-- A fully valid submission (amount 100000, tenure 12 months). -/
def cInpValid : SubmitInput :=
  { files := [], loanIdValid := true, loan := some cLoan,
    loanDetails := .obj (.num (.fin 100000)) .missing (.num (.fin 12)) .missing true,
    dynamicFields := [], employmentType := some "Salaried",
    monthlyIncome := .num (.fin 50000), personalEmail := some "a@b.c" }

/-- An SMTP environment that fails the preflight (all variables unset). -/
def cEnvUnset : SmtpEnv := { host := none, port := none, user := none, pass := none }

/-- A complete SMTP environment. -/
def cEnvOk : SmtpEnv :=
  { host := some "smtp.example.com", port := some "587",
    user := some "u@example.com", pass := some "secret" }

/-- Runtime primitives whose `Math.pow` is the exact rational power at
integer exponents (the idealization every EMI claim is about). -/
def wJs : JsPrims :=
  { parseNum := fun _ => .nan, showNum := fun _ => "?",
    pow := fun x q => x ^ q.num.toNat }

/-- The record `submitCore cJs cInpValid` persists (the EMI field as the
unevaluated EMI term). -/
def cRecValid : AppRecord :=
  { loanType := "Personal",
    loanDetails := { loanAmount := 100000, loanTenure := 12,
                     interestRate := 12, emi := emiOf cJs 100000 12 12 },
    documents := [], dynamicFields := [], employmentType := "Salaried",
    monthlyIncome := .fin 50000, status := "Submitted" }

/-- A batch whose dynamic field names are the array-index strings `"2"`
and `"1"`, in that encounter order. -/
def cBatchIdx : List UFile :=
  [ { fieldname := "dynamicFiles_2", originalname := "a.png", filename := "a1.png" },
    { fieldname := "dynamicFiles_1", originalname := "b.png", filename := "b1.png" } ]

/-- A batch with two selfies, an ID proof and one dynamic group. -/
def cBatchMixed : List UFile :=
  [ { fieldname := "selfie", originalname := "s1.png", filename := "s1s.png" },
    { fieldname := "dynamicFiles_gst", originalname := "g.pdf", filename := "g1.pdf" },
    { fieldname := "idProof", originalname := "id.png", filename := "id1.png" },
    { fieldname := "selfie", originalname := "s2.png", filename := "s2s.png" } ]

/-! ## Supporting lemmas: strings -/

theorem string_ext {s t : String} (h : s.data = t.data) : s = t := by
  cases s; cases t; exact congrArg String.mk h

theorem jsStartsWith_marker_exists {s : String}
    (h : jsStartsWith s dynMarker = true) : ∃ t : String, s = dynMarker ++ t := by
  unfold jsStartsWith at h
  rw [ List.isPrefixOf_iff_prefix] at h
  obtain ⟨l, hl⟩ := h
  exact ⟨⟨l⟩, string_ext (by rw [String.data_append]; exact hl.symm)⟩

theorem strDropChars_marker_append (t : String) :
    strDropChars (dynMarker ++ t) dynMarker.data.length = t := by
  apply string_ext
  show ((dynMarker ++ t).data).drop dynMarker.data.length = t.data
  rw [String.data_append, List.drop_left]

theorem jsStartsWith_marker_append (t : String) :
    jsStartsWith (dynMarker ++ t) dynMarker = true := by
  unfold jsStartsWith
  rw [ List.isPrefixOf_iff_prefix, String.data_append]
  exact List.prefix_append _ _

/-- Appending to `dynamicFiles_` is injective. -/
theorem marker_append_inj {a b : String}
    (h : dynMarker ++ a = dynMarker ++ b) : a = b := by
  have h2 : (dynMarker ++ a).data = (dynMarker ++ b).data := by rw [h]
  simp only [String.data_append] at h2
  exact string_ext (List.append_cancel_left h2)

/-- The dynamic-routing predicate of the grouping pass, expressed through
the field name having the literal form `dynamicFiles_<name>`. -/
theorem dyn_pred_eq (f : UFile) (name : String) :
    (jsStartsWith f.fieldname dynMarker &&
      (strDropChars f.fieldname dynMarker.data.length == name)) =
    (f.fieldname == dynMarker ++ name) := by
  by_cases h : jsStartsWith f.fieldname dynMarker = true
  · obtain ⟨t, ht⟩ := jsStartsWith_marker_exists h
    rw [ht, jsStartsWith_marker_append, strDropChars_marker_append]
    simp only [Bool.true_and]
    rcases eq_or_ne t name with rfl | hne
    · simp
    · have hne2 : dynMarker ++ t ≠ dynMarker ++ name :=
        fun he => hne (marker_append_inj he)
      simp [hne, hne2]
  · have hb : jsStartsWith f.fieldname dynMarker = false := by simpa using h
    rw [hb]
    have : f.fieldname ≠ dynMarker ++ name := by
      intro he
      rw [he, jsStartsWith_marker_append] at hb
      simp at hb
    simp [this]

/-- `"Dynamic: " ++ ·` is injective. -/
theorem dynType_inj {a b : String}
    (h : "Dynamic: " ++ a = "Dynamic: " ++ b) : a = b := by
  have h2 : ("Dynamic: " ++ a).data = ("Dynamic: " ++ b).data := by rw [h]
  simp only [String.data_append] at h2
  exact string_ext (List.append_cancel_left h2)

/-- A string whose first character is not `'D'` is not a dynamic document
type. -/
theorem ne_dyn_of_head {t : String} {c : Char}
    (hc : t.data.head? = some c) (hne : c ≠ 'D') (n : String) :
    t ≠ "Dynamic: " ++ n := by
  intro h
  have hd : ("Dynamic: " ++ n).data.head? = some 'D' := by
    rw [String.data_append]; rfl
  rw [h, hd] at hc
  exact hne (Option.some.inj hc).symm

/-! ## Supporting lemmas: grouping -/

theorem getGroup_addFile (gs : Groups) (k : String) (f : UFile) (k' : String) :
    getGroup (addFile gs k f) k' =
      if k' = k then getGroup gs k' ++ [f] else getGroup gs k' := by
  induction gs with
  | nil =>
    by_cases h : k' = k <;> simp [addFile, getGroup, h]
  | cons p rest ih =>
    obtain ⟨k2, fs⟩ := p
    by_cases h2 : k2 = k
    · subst h2
      by_cases h3 : k' = k2 <;> simp [addFile, getGroup, h3]
    · by_cases h3 : k' = k2
      · subst h3
        simp [addFile, getGroup, h2]
      · simp [addFile, getGroup, h2, h3, ih]

theorem keys_addFile (gs : Groups) (k : String) (f : UFile) :
    (addFile gs k f).map Prod.fst =
      if k ∈ gs.map Prod.fst then gs.map Prod.fst else gs.map Prod.fst ++ [k] := by
  induction gs with
  | nil => simp [addFile]
  | cons p rest ih =>
    obtain ⟨k2, fs⟩ := p
    by_cases h2 : k2 = k
    · subst h2; simp [addFile]
    · have : ¬ k = k2 := fun he => h2 (he ▸ rfl)
      by_cases hm : k ∈ rest.map Prod.fst <;>
        simp [addFile, h2, this, hm, ih]

theorem nodup_keys_addFile {gs : Groups} (h : (gs.map Prod.fst).Nodup)
    (k : String) (f : UFile) : ((addFile gs k f).map Prod.fst).Nodup := by
  rw [keys_addFile]
  by_cases hm : k ∈ gs.map Prod.fst
  · simpa [hm] using h
  · simp only [hm, if_false]
    rw [List.nodup_append]
    refine ⟨h, List.nodup_singleton k, fun a ha hb => ?_⟩
    rw [List.mem_singleton] at hb
    exact hm (hb ▸ ha)

/-- Static groups accumulated by the `forEach` over the batch. -/
theorem getGroup_foldl_static (batch : List UFile) (acc : Groups × Groups)
    (k : String) :
    getGroup (batch.foldl organizeStep acc).1 k =
      getGroup acc.1 k ++
        batch.filter (fun f =>
          !jsStartsWith f.fieldname dynMarker && (f.fieldname == k)) := by
  induction batch generalizing acc with
  | nil => simp
  | cons f rest ih =>
    rw [List.foldl_cons, ih]
    by_cases hd : jsStartsWith f.fieldname dynMarker = true
    · simp [organizeStep, hd]
    · have hb : jsStartsWith f.fieldname dynMarker = false := by simpa using hd
      by_cases he : k = f.fieldname
      · subst he
        simp [organizeStep, hb, getGroup_addFile]
      · have he2 : ¬ f.fieldname = k := fun h => he h.symm
        simp [organizeStep, hb, getGroup_addFile, he, beq_iff_eq, he2]

/-- Dynamic groups accumulated by the `forEach` over the batch. -/
theorem getGroup_foldl_dyn (batch : List UFile) (acc : Groups × Groups)
    (name : String) :
    getGroup (batch.foldl organizeStep acc).2 name =
      getGroup acc.2 name ++
        batch.filter (fun f =>
          jsStartsWith f.fieldname dynMarker &&
            (strDropChars f.fieldname dynMarker.data.length == name)) := by
  induction batch generalizing acc with
  | nil => simp
  | cons f rest ih =>
    rw [List.foldl_cons, ih]
    by_cases hd : jsStartsWith f.fieldname dynMarker = true
    · by_cases he : name = strDropChars f.fieldname dynMarker.data.length
      · subst he
        simp [organizeStep, hd, getGroup_addFile]
      · have he2 : (strDropChars f.fieldname dynMarker.data.length == name) = false := by
          simp only [beq_eq_false_iff_ne, ne_eq]
          exact fun h => he h.symm
        have he' : ¬ name = strDropChars f.fieldname dynMarker.length := he
        have he2' : (strDropChars f.fieldname dynMarker.length == name) = false := he2
        simp [organizeStep, hd, getGroup_addFile, he, he2, he', he2']
    · have hb : jsStartsWith f.fieldname dynMarker = false := by simpa using hd
      simp [organizeStep, hb]

/-- The dynamic group for `name` holds exactly the batch files whose field
name is literally `dynamicFiles_<name>`, in batch order. -/
theorem getGroup_dyn_eq (batch : List UFile) (name : String) :
    getGroup (organizeFiles batch).2 name = dynFilesFor batch name := by
  unfold organizeFiles dynFilesFor
  rw [getGroup_foldl_dyn]
  have hz : getGroup (([], []) : Groups × Groups).2 name = [] := rfl
  rw [hz, List.nil_append]
  apply List.filter_congr
  intro f _
  rw [dyn_pred_eq]
  by_cases h : f.fieldname = dynMarker ++ name <;> simp [h]

/-- The static group for `k` holds exactly the batch files with that field
name, provided `k` itself does not carry the dynamic marker. -/
theorem getGroup_static_eq (batch : List UFile) (k : String)
    (hk : jsStartsWith k dynMarker = false) :
    getGroup (organizeFiles batch).1 k =
      batch.filter fun f => f.fieldname == k := by
  unfold organizeFiles
  rw [getGroup_foldl_static]
  have hz : getGroup (([], []) : Groups × Groups).1 k = [] := rfl
  rw [hz, List.nil_append]
  apply List.filter_congr
  intro f _
  by_cases he : f.fieldname = k
  · subst he; simp [hk]
  · simp [beq_iff_eq, he]

theorem nodup_keys_foldl (batch : List UFile) (acc : Groups × Groups)
    (h1 : (acc.1.map Prod.fst).Nodup) (h2 : (acc.2.map Prod.fst).Nodup) :
    ((batch.foldl organizeStep acc).1.map Prod.fst).Nodup ∧
      ((batch.foldl organizeStep acc).2.map Prod.fst).Nodup := by
  induction batch generalizing acc with
  | nil => exact ⟨h1, h2⟩
  | cons f rest ih =>
    rw [List.foldl_cons]
    unfold organizeStep
    by_cases hd : jsStartsWith f.fieldname dynMarker = true
    · simp only [hd, if_true]
      exact ih _ h1 (nodup_keys_addFile h2 _ _)
    · have hb : jsStartsWith f.fieldname dynMarker = false := by simpa using hd
      simp only [hb, Bool.false_eq_true, if_false]
      exact ih _ (nodup_keys_addFile h1 _ _) h2

theorem nodup_dyn_keys (batch : List UFile) :
    (((organizeFiles batch).2.map Prod.fst)).Nodup :=
  (nodup_keys_foldl batch ([], []) List.nodup_nil List.nodup_nil).2

/-- `Object.keys` enumerates a permutation of the insertion-ordered keys. -/
theorem jsObjectKeys_perm (ks : List String) : (jsObjectKeys ks).Perm ks := by
  unfold jsObjectKeys sortIdxKeys
  exact ((List.perm_insertionSort _ _).append_right _).trans
    (List.filter_append_perm _ ks)

/-! ## Supporting lemmas: dynamic-fields map -/

theorem getDyn_setVal (m : List (String × DynVal)) (k : String) (v : DynVal)
    (k' : String) :
    getDyn (setVal m k v) k' = if k' = k then some v else getDyn m k' := by
  induction m with
  | nil => by_cases h : k' = k <;> simp [setVal, getDyn, h]
  | cons p rest ih =>
    obtain ⟨k2, v2⟩ := p
    by_cases h2 : k2 = k
    · subst h2
      by_cases h3 : k' = k2 <;> simp [setVal, getDyn, h3]
    · by_cases h3 : k' = k2
      · subst h3
        simp [setVal, getDyn, h2]
      · simp [setVal, getDyn, h2, h3, ih]

theorem getDyn_foldSet_not_mem (ks : List String)
    (F : String → DynVal) (m : List (String × DynVal)) (name : String)
    (h : name ∉ ks) :
    getDyn (ks.foldl (fun m k => setVal m k (F k)) m) name = getDyn m name := by
  induction ks generalizing m with
  | nil => rfl
  | cons k rest ih =>
    rw [List.foldl_cons, ih _ (fun hm => h (List.mem_cons_of_mem _ hm)),
      getDyn_setVal]
    have : ¬ name = k := fun he => h (he ▸ List.mem_cons_self _ _)
    simp [this]

theorem getDyn_foldSet_mem (ks : List String)
    (F : String → DynVal) (m : List (String × DynVal)) (name : String)
    (h : name ∈ ks) :
    getDyn (ks.foldl (fun m k => setVal m k (F k)) m) name = some (F name) := by
  induction ks generalizing m with
  | nil => cases h
  | cons k rest ih =>
    rw [List.foldl_cons]
    by_cases hm : name ∈ rest
    · exact ih _ hm
    · have hk : name = k := by
        rcases List.mem_cons.mp h with h1 | h1
        · exact h1
        · exact absurd h1 hm
      subst hk
      rw [getDyn_foldSet_not_mem _ _ _ _ hm, getDyn_setVal]
      simp

/-- After the dynamic pass, `dynamicFields[name]` is the file-reference
list of the group, whatever was stored there before. -/
theorem getDyn_applyDynGroups (dfields : List (String × DynVal)) (dyn : Groups)
    (name : String) (h : name ∈ dyn.map Prod.fst) :
    getDyn (applyDynGroups dfields dyn) name =
      some (DynVal.files ((getGroup dyn name).map fileRefOf)) := by
  unfold applyDynGroups
  exact getDyn_foldSet_mem _ _ _ _
    ((jsObjectKeys_perm (dyn.map Prod.fst)).mem_iff.mpr h)

theorem getDyn_applyDynGroups_not_mem (dfields : List (String × DynVal))
    (dyn : Groups) (name : String) (h : name ∉ dyn.map Prod.fst) :
    getDyn (applyDynGroups dfields dyn) name = getDyn dfields name := by
  unfold applyDynGroups
  exact getDyn_foldSet_not_mem _ _ _ _
    (fun hm => h ((jsObjectKeys_perm (dyn.map Prod.fst)).mem_iff.mp hm))

/-! ## Supporting lemmas: document lists -/

theorem filter_pushGroup_ne (fs : List UFile) (ty s : String) (h : ty ≠ s) :
    (pushGroup fs ty).filter (fun d => d.type == s) = [] := by
  unfold pushGroup
  rw [List.filter_map]
  have : ((fun d : Document => d.type == s) ∘ mkDoc ty) = fun _ => false := by
    funext f
    simp [mkDoc, Function.comp, h]
  rw [this]
  simp

theorem filter_pushGroup_eq (fs : List UFile) (ty : String) :
    (pushGroup fs ty).filter (fun d => d.type == ty) = pushGroup fs ty := by
  unfold pushGroup
  rw [List.filter_map]
  have : ((fun d : Document => d.type == ty) ∘ mkDoc ty) = fun _ => true := by
    funext f
    simp [mkDoc, Function.comp]
  rw [this]
  simp

theorem fixed_ne_dyn (name : String) :
    "ID" ≠ "Dynamic: " ++ name ∧ "Address" ≠ "Dynamic: " ++ name ∧
    "Income" ≠ "Dynamic: " ++ name ∧ "Bank Statement" ≠ "Dynamic: " ++ name ∧
    "Other" ≠ "Dynamic: " ++ name ∧ "Selfie" ≠ "Dynamic: " ++ name :=
  ⟨ne_dyn_of_head (t := "ID") (c := 'I') rfl (by decide) name,
   ne_dyn_of_head (t := "Address") (c := 'A') rfl (by decide) name,
   ne_dyn_of_head (t := "Income") (c := 'I') rfl (by decide) name,
   ne_dyn_of_head (t := "Bank Statement") (c := 'B') rfl (by decide) name,
   ne_dyn_of_head (t := "Other") (c := 'O') rfl (by decide) name,
   ne_dyn_of_head (t := "Selfie") (c := 'S') rfl (by decide) name⟩

theorem filter_fixedDocs_dyn (files : Groups) (name : String) :
    (fixedDocs files).filter (fun d => d.type == "Dynamic: " ++ name) = [] := by
  obtain ⟨h1, h2, h3, h4, h5, _⟩ := fixed_ne_dyn name
  unfold fixedDocs
  simp only [List.filter_append]
  rw [filter_pushGroup_ne _ _ _ h1, filter_pushGroup_ne _ _ _ h2,
    filter_pushGroup_ne _ _ _ h3, filter_pushGroup_ne _ _ _ h4,
    filter_pushGroup_ne _ _ _ h5]
  simp

theorem filter_selfieDocs_dyn (files : Groups) (name : String) :
    (selfieDocs files).filter (fun d => d.type == "Dynamic: " ++ name) = [] := by
  obtain ⟨_, _, _, _, _, h6⟩ := fixed_ne_dyn name
  unfold selfieDocs
  cases getGroup files "selfie" with
  | nil => rfl
  | cons f rest => simp [mkDoc, h6]

theorem flatMap_ite_of_count_zero (l : List String) (name : String)
    (d : List Document) (h : l.count name = 0) :
    (l.flatMap fun k => if k = name then d else []) = [] := by
  induction l with
  | nil => rfl
  | cons k rest ih =>
    by_cases h2 : k = name
    · subst h2
      rw [List.count_cons_self] at h
      exact (Nat.succ_ne_zero _ h).elim
    · rw [List.count_cons_of_ne (fun he => h2 he.symm)] at h
      simp only [List.flatMap_cons, h2, if_false, List.nil_append]
      exact ih h

theorem flatMap_ite_of_count_one (l : List String) (name : String)
    (d : List Document) (h : l.count name = 1) :
    (l.flatMap fun k => if k = name then d else []) = d := by
  induction l with
  | nil => simp at h
  | cons k rest ih =>
    by_cases h2 : k = name
    · subst h2
      rw [List.count_cons_self] at h
      have h1 : rest.count k = 0 := by omega
      simp only [List.flatMap_cons, if_pos rfl]
      rw [flatMap_ite_of_count_zero rest k d h1, List.append_nil]
      simp
    · rw [List.count_cons_of_ne (fun he => h2 he.symm)] at h
      simp only [List.flatMap_cons, h2, if_false, List.nil_append]
      exact ih h

theorem getGroup_eq_nil_of_not_mem (gs : Groups) (k : String)
    (h : k ∉ gs.map Prod.fst) : getGroup gs k = [] := by
  induction gs with
  | nil => rfl
  | cons p rest ih =>
    obtain ⟨k2, fs⟩ := p
    have h1 : ¬ k = k2 := fun he => h (by simp [he])
    have h2 : k ∉ rest.map Prod.fst := fun hm => h (by simp [hm])
    simp [getGroup, h1, ih h2]

/-- Filtering the dynamic documents for one dynamic type keeps exactly the
documents of that group, in group order. -/
theorem filter_dynamicDocs (dyn : Groups) (name : String)
    (hnd : (dyn.map Prod.fst).Nodup) :
    (dynamicDocs dyn).filter (fun d => d.type == "Dynamic: " ++ name) =
      (getGroup dyn name).map (mkDoc ("Dynamic: " ++ name)) := by
  unfold dynamicDocs
  rw [List.filter_flatMap]
  have hpt : ∀ k : String,
      ((getGroup dyn k).map (mkDoc ("Dynamic: " ++ k))).filter
          (fun d => d.type == "Dynamic: " ++ name) =
        if k = name then (getGroup dyn name).map (mkDoc ("Dynamic: " ++ name))
        else [] := by
    intro k
    by_cases hk : k = name
    · subst hk
      rw [if_pos rfl]
      exact filter_pushGroup_eq (getGroup dyn k) ("Dynamic: " ++ k)
    · rw [if_neg hk]
      exact filter_pushGroup_ne (getGroup dyn k) ("Dynamic: " ++ k)
        ("Dynamic: " ++ name) (fun he => hk (dynType_inj he))
  have hcongr : ((jsObjectKeys (dyn.map Prod.fst)).flatMap fun k =>
        ((getGroup dyn k).map (mkDoc ("Dynamic: " ++ k))).filter
          (fun d => d.type == "Dynamic: " ++ name)) =
      ((jsObjectKeys (dyn.map Prod.fst)).flatMap fun k =>
        if k = name then (getGroup dyn name).map (mkDoc ("Dynamic: " ++ name))
        else []) := by
    apply List.flatMap_congr
    intro k _
    exact hpt k
  rw [hcongr]
  by_cases hm : name ∈ dyn.map Prod.fst
  · have hc : (jsObjectKeys (dyn.map Prod.fst)).count name = 1 := by
      rw [(jsObjectKeys_perm _).count_eq]
      exact List.count_eq_one_of_mem hnd hm
    exact flatMap_ite_of_count_one _ _ _ hc
  · have hc : (jsObjectKeys (dyn.map Prod.fst)).count name = 0 := by
      rw [(jsObjectKeys_perm _).count_eq]
      exact List.count_eq_zero.mpr hm
    rw [flatMap_ite_of_count_zero _ _ _ hc,
      getGroup_eq_nil_of_not_mem _ _ hm]
    rfl

theorem filter_fixedDocs_selfie (files : Groups) :
    (fixedDocs files).filter (fun d => d.type == "Selfie") = [] := by
  unfold fixedDocs
  simp only [List.filter_append]
  rw [filter_pushGroup_ne _ _ _ (by decide), filter_pushGroup_ne _ _ _ (by decide),
    filter_pushGroup_ne _ _ _ (by decide), filter_pushGroup_ne _ _ _ (by decide),
    filter_pushGroup_ne _ _ _ (by decide)]
  simp

theorem filter_dynamicDocs_selfie (dyn : Groups) :
    (dynamicDocs dyn).filter (fun d => d.type == "Selfie") = [] := by
  unfold dynamicDocs
  rw [List.filter_flatMap]
  have hz : ((jsObjectKeys (dyn.map Prod.fst)).flatMap fun k =>
        ((getGroup dyn k).map (mkDoc ("Dynamic: " ++ k))).filter
          (fun d => d.type == "Selfie")) =
      ((jsObjectKeys (dyn.map Prod.fst)).flatMap fun _ => ([] : List Document)) := by
    apply List.flatMap_congr
    intro k _
    exact filter_pushGroup_ne (getGroup dyn k) ("Dynamic: " ++ k) "Selfie"
      (fun he => (fixed_ne_dyn k).2.2.2.2.2 he.symm)
  rw [hz]
  simp

theorem filter_selfieDocs_selfie (files : Groups) :
    (selfieDocs files).filter (fun d => d.type == "Selfie") = selfieDocs files := by
  unfold selfieDocs
  cases getGroup files "selfie" with
  | nil => rfl
  | cons f rest => simp [mkDoc]

/-! ## Supporting lemmas: batch membership -/

theorem mem_static_group {batch : List UFile} {k : String} {f : UFile}
    (h : f ∈ getGroup (organizeFiles batch).1 k) : f ∈ batch := by
  unfold organizeFiles at h
  rw [getGroup_foldl_static] at h
  have hz : getGroup (([], []) : Groups × Groups).1 k = [] := rfl
  rw [hz, List.nil_append] at h
  exact List.mem_of_mem_filter h

theorem mem_dyn_group {batch : List UFile} {k : String} {f : UFile}
    (h : f ∈ getGroup (organizeFiles batch).2 k) : f ∈ batch := by
  unfold organizeFiles at h
  rw [getGroup_foldl_dyn] at h
  have hz : getGroup (([], []) : Groups × Groups).2 k = [] := rfl
  rw [hz, List.nil_append] at h
  exact List.mem_of_mem_filter h

theorem mem_pushGroup {d : Document} {fs : List UFile} {ty : String}
    (h : d ∈ pushGroup fs ty) : ∃ f ∈ fs, d = mkDoc ty f := by
  unfold pushGroup at h
  obtain ⟨f, hf, he⟩ := List.mem_map.mp h
  exact ⟨f, hf, he.symm⟩

/-! ## Supporting lemmas: application numbering -/

theorem formatAppNumber_ne_empty (c : ℕ) : formatAppNumber c ≠ "" := by
  intro h
  have h2 := congrArg String.data h
  rw [formatAppNumber, String.data_append] at h2
  have h3 : ('A' :: 'P' :: 'P' :: []) ++ (jsPadStart (toString (c + 1)) 6 '0').data
      = [] := h2
  simp at h3

theorem preSaveHook_assigned (a : Option String) (status : String) (count : ℕ)
    (h : appNumberFalsy a = false) : preSaveHook a status count = a := by
  unfold preSaveHook
  rw [h]
  simp

theorem foldl_preSave_assigned (saves : List (String × ℕ)) (a : Option String)
    (h : appNumberFalsy a = false) :
    saves.foldl (fun x p => preSaveHook x p.1 p.2) a = a := by
  induction saves with
  | nil => rfl
  | cons p rest ih =>
    rw [List.foldl_cons, preSaveHook_assigned _ _ _ h]
    exact ih

theorem runSaves_eq_find (saves : List (String × ℕ)) :
    runSaves saves =
      match saves.find? (fun p => p.1 != "Draft") with
      | some p => some (formatAppNumber p.2)
      | none => none := by
  unfold runSaves
  induction saves with
  | nil => rfl
  | cons p rest ih =>
    obtain ⟨st, c⟩ := p
    by_cases hst : st = "Draft"
    · subst hst
      have h1 : preSaveHook none "Draft" c = none := by
        unfold preSaveHook appNumberFalsy
        simp
      rw [List.foldl_cons]
      simp only [h1]
      rw [ih]
      rw [List.find?_cons_of_neg _ (by simp)]
    · have h1 : preSaveHook none st c = some (formatAppNumber c) := by
        unfold preSaveHook appNumberFalsy
        simp [hst]
      rw [List.foldl_cons]
      simp only [h1]
      rw [foldl_preSave_assigned _ _ (by
        unfold appNumberFalsy
        simp [formatAppNumber_ne_empty c])]
      rw [List.find?_cons_of_pos _ (by simpa using hst)]

/-! ## Supporting lemmas: pipeline inversion -/

theorem submitCore_ok_inv (js : JsPrims) (inp : SubmitInput) (rec : AppRecord)
    (h : submitCore js inp = .ok rec) :
    ∃ loan loanAmount loanTenure et mi,
      inp.loan = some loan ∧
      validateAmountTenure js inp.loanDetails = .ok (loanAmount, loanTenure) ∧
      validateEmployment js inp = .ok (et, mi) ∧
      rec = { loanType := loan.type,
              loanDetails := ⟨loanAmount, loanTenure, resolveAnnualRate loan,
                emiOf js loanAmount loanTenure (resolveAnnualRate loan)⟩,
              documents := (classify inp.files inp.dynamicFields).documents,
              dynamicFields := (classify inp.files inp.dynamicFields).dynFields,
              employmentType := et, monthlyIncome := mi,
              status := "Submitted" } := by
  unfold submitCore at h
  cases hv : inp.loanIdValid <;> rw [hv] at h
  · simp at h
  · cases hl : inp.loan <;> rw [hl] at h
    · simp at h
    · rename_i loan
      cases hr : inp.loanDetails.rejected <;> rw [hr] at h
      · cases hva : validateAmountTenure js inp.loanDetails <;> rw [hva] at h
        · simp at h
        · rename_i pr
          obtain ⟨loanAmount, loanTenure⟩ := pr
          cases hve : validateEmployment js inp <;> rw [hve] at h
          · simp at h
          · rename_i pe
            obtain ⟨et, mi⟩ := pe
            exact ⟨loan, loanAmount, loanTenure, et, mi, rfl, rfl, rfl,
              (Except.ok.inj h).symm⟩
      · simp at h

/-! ## Supporting lemmas: normalizer -/

theorem getBody_normalizeKey (parse : String → Option BodyVal)
    (body : List (String × BodyVal)) (k k' : String) :
    getBody (normalizeKey parse body k) k' =
      if k' = k then (getBody body k').map (normalizeField parse)
      else getBody body k' := by
  induction body with
  | nil => by_cases h : k' = k <;> simp [normalizeKey, getBody, h]
  | cons p rest ih =>
    obtain ⟨k2, v⟩ := p
    show getBody ((if k2 = k then (k2, normalizeField parse v) else (k2, v)) ::
        normalizeKey parse rest k) k' =
      if k' = k then (getBody ((k2, v) :: rest) k').map (normalizeField parse)
      else getBody ((k2, v) :: rest) k'
    by_cases h2 : k2 = k
    · rw [if_pos h2]
      by_cases h3 : k' = k2
      · have hk : k' = k := h3.trans h2
        simp [getBody, h3, hk, h2]
      · have hk : ¬ k' = k := fun he => h3 (he.trans h2.symm)
        simp [getBody, h3, hk, ih]
    · rw [if_neg h2]
      by_cases h3 : k' = k2
      · have hk : ¬ k' = k := fun he => h2 (h3.symm.trans he)
        simp [getBody, h3, hk, h2]
      · simp [getBody, h3, ih]

/-! ## Claim theorems -/

/-- C9: the resolved annual interest rate of a submission is the product's
default rate when present, else its minimum rate when present, else zero;
the resolution depends on the product's interest-rate band alone, and the
rate persisted by a successful submission is exactly this resolution. -/
theorem claim_C9_rate_resolution (loan : Loan) :
    (∀ ir d, loan.interestRate = some ir → ir.default = some d →
      resolveAnnualRate loan = d) ∧
    (∀ ir m, loan.interestRate = some ir → ir.default = none →
      ir.min = some m → resolveAnnualRate loan = m) ∧
    (∀ ir, loan.interestRate = some ir → ir.default = none → ir.min = none →
      resolveAnnualRate loan = 0) ∧
    (loan.interestRate = none → resolveAnnualRate loan = 0) ∧
    (∀ l2 : Loan, loan.interestRate = l2.interestRate →
      resolveAnnualRate loan = resolveAnnualRate l2) ∧
    (∀ js inp rec, submitCore js inp = .ok rec → inp.loan = some loan →
      rec.loanDetails.interestRate = resolveAnnualRate loan) := by
  refine ⟨?_, ?_, ?_, ?_, ?_, ?_⟩
  · intro ir d h1 h2; simp [resolveAnnualRate, h1, h2]
  · intro ir m h1 h2 h3; simp [resolveAnnualRate, h1, h2, h3]
  · intro ir h1 h2 h3; simp [resolveAnnualRate, h1, h2, h3]
  · intro h; simp [resolveAnnualRate, h]
  · intro l2 h; simp [resolveAnnualRate, h]
  · intro js inp rec hok hl
    obtain ⟨loan2, A, T, et, mi, hl2, _, _, hrec⟩ := submitCore_ok_inv js inp rec hok
    rw [hl] at hl2
    obtain rfl : loan = loan2 := Option.some.inj hl2
    rw [hrec]

/-- Witness for C9 at a concrete product: `{min: 10, max: 20, default: 12}`
resolves to 12. -/
theorem claim_C9_rate_resolution_witness : resolveAnnualRate cLoan = 12 :=
  (claim_C9_rate_resolution cLoan).1 ⟨some 10, some 20, some 12⟩ 12 rfl rfl

/-- C2: over any sequence of saves, `applicationNumber` is assigned exactly
once — at the first save whose status is not `Draft` — with value
`APP` + the zero-padded (6-digit) successor of the collection count read at
that save; a non-falsy `applicationNumber` is never overwritten by a later
save. -/
theorem claim_C2_application_number :
    (∀ saves : List (String × ℕ),
      runSaves saves =
        match saves.find? (fun p => p.1 != "Draft") with
        | some p => some (formatAppNumber p.2)
        | none => none) ∧
    (∀ a status count, appNumberFalsy a = false →
      preSaveHook a status count = a) ∧
    (∀ count, formatAppNumber count =
      "APP" ++ jsPadStart (toString (count + 1)) 6 '0') :=
  ⟨runSaves_eq_find, preSaveHook_assigned, fun _ => rfl⟩

/-- Witness for C2: an already-assigned number survives a later save. -/
theorem claim_C2_application_number_witness :
    appNumberFalsy (some "APP000001") = false ∧
    preSaveHook (some "APP000001") "Approved" 7 = some "APP000001" :=
  ⟨by decide, claim_C2_application_number.2.1 _ "Approved" 7 (by decide)⟩

/-- C8: for each of the five JSON-bearing keys, the normalizer replaces a
string value by its parse result when parsing succeeds, keeps the original
string when parsing fails, and leaves non-string values unchanged (it is a
total function — no failure of the request originates here). -/
theorem claim_C8_normalizer (parse : String → Option BodyVal)
    (body : List (String × BodyVal)) (k : String) (hk : k ∈ jsonFields) :
    getBody (normalizeBody parse body) k =
      match getBody body k with
      | some (.str s) => some ((parse s).getD (.str s))
      | v => v := by
  have hmap : getBody (normalizeBody parse body) k =
      (getBody body k).map (normalizeField parse) := by
    unfold normalizeBody jsonFields
    simp only [List.foldl_cons, List.foldl_nil]
    fin_cases hk <;>
      · rw [getBody_normalizeKey, getBody_normalizeKey, getBody_normalizeKey,
          getBody_normalizeKey, getBody_normalizeKey]
        simp
  rw [hmap]
  cases hv : getBody body k with
  | none => rfl
  | some v => cases v with
    | str s => rfl
    | structured t => rfl

/-- Witness for C8: a parse success replaces the string under
`personalInfo`. -/
theorem claim_C8_normalizer_witness :
    getBody (normalizeBody (fun _ => some (.structured "parsed"))
      [("personalInfo", .str "raw")]) "personalInfo" =
      some (.structured "parsed") := by
  have h := claim_C8_normalizer (fun _ => some (.structured "parsed"))
    [("personalInfo", .str "raw")] "personalInfo" (by decide)
  simpa using h

/-- C10: every document produced at intake has status `Pending`, and its
`name`/`url` come from one of the uploaded files, the URL being
`/uploads/` + the stored filename. -/
theorem claim_C10_document_invariant (batch : List UFile)
    (dfields : List (String × DynVal)) (d : Document)
    (h : d ∈ (classify batch dfields).documents) :
    d.status = "Pending" ∧
      ∃ f ∈ batch, d.name = f.originalname ∧ d.url = "/uploads/" ++ f.filename := by
  simp only [classify, List.mem_append] at h
  rcases h with (hf | hs) | hd
  · unfold fixedDocs at hf
    simp only [List.mem_append] at hf
    rcases hf with (((h1 | h1) | h1) | h1) | h1 <;>
      · obtain ⟨f, hfm, rfl⟩ := mem_pushGroup h1
        exact ⟨rfl, f, mem_static_group hfm, rfl, rfl⟩
  · unfold selfieDocs at hs
    cases hg : getGroup (organizeFiles batch).1 "selfie" with
    | nil => rw [hg] at hs; cases hs
    | cons f rest =>
      rw [hg] at hs
      rw [List.mem_singleton] at hs
      subst hs
      have hfm : f ∈ getGroup (organizeFiles batch).1 "selfie" := by
        rw [hg]; exact List.mem_cons_self _ _
      exact ⟨rfl, f, mem_static_group hfm, rfl, rfl⟩
  · unfold dynamicDocs at hd
    rw [List.mem_flatMap] at hd
    obtain ⟨k, _, hdm⟩ := hd
    obtain ⟨f, hfm, rfl⟩ := mem_pushGroup hdm
    exact ⟨rfl, f, mem_dyn_group hfm, rfl, rfl⟩

/-- Witness for C10 at a concrete batch and document. -/
theorem claim_C10_document_invariant_witness :
    (mkDoc "ID" ⟨"idProof", "id.png", "id1.png"⟩).status = "Pending" ∧
      ∃ f ∈ cBatchMixed,
        (mkDoc "ID" ⟨"idProof", "id.png", "id1.png"⟩).name = f.originalname ∧
        (mkDoc "ID" ⟨"idProof", "id.png", "id1.png"⟩).url =
          "/uploads/" ++ f.filename :=
  claim_C10_document_invariant cBatchMixed [] _ (by decide)

/-- C6: at most one `Selfie` document is produced per batch; when files are
uploaded under `selfie`, exactly one document is produced, built from the
first such file in batch order, and the rest are ignored. -/
theorem claim_C6_selfie_single (batch : List UFile)
    (dfields : List (String × DynVal)) :
    ((classify batch dfields).documents.filter (fun d => d.type == "Selfie") =
      match batch.filter (fun f => f.fieldname == "selfie") with
      | [] => []
      | f :: _ => [mkDoc "Selfie" f]) ∧
    ((classify batch dfields).documents.filter
      (fun d => d.type == "Selfie")).length ≤ 1 := by
  have hmain : (classify batch dfields).documents.filter
      (fun d => d.type == "Selfie") = selfieDocs (organizeFiles batch).1 := by
    simp only [classify, List.filter_append]
    rw [filter_fixedDocs_selfie, filter_dynamicDocs_selfie,
      filter_selfieDocs_selfie]
    simp
  constructor
  · rw [hmain]
    unfold selfieDocs
    rw [getGroup_static_eq _ _ (by decide)]
  · rw [hmain]
    unfold selfieDocs
    cases getGroup (organizeFiles batch).1 "selfie" <;> simp

/-- C5: for a dynamic field name with at least one uploaded file, exactly
one `Dynamic: <name>` document is produced per file (in batch order), and
`dynamicFields[<name>]` ends up as the `{name, url}` list of exactly those
files, regardless of any value previously stored under that key. -/
theorem claim_C5_dynamic_files (batch : List UFile)
    (dfields : List (String × DynVal)) (name : String)
    (h : dynFilesFor batch name ≠ []) :
    ((classify batch dfields).documents.filter
        (fun d => d.type == "Dynamic: " ++ name) =
      (dynFilesFor batch name).map (mkDoc ("Dynamic: " ++ name))) ∧
    getDyn (classify batch dfields).dynFields name =
      some (.files ((dynFilesFor batch name).map fileRefOf)) := by
  constructor
  · simp only [classify, List.filter_append]
    rw [filter_fixedDocs_dyn, filter_selfieDocs_dyn,
      filter_dynamicDocs _ _ (nodup_dyn_keys batch), getGroup_dyn_eq]
    simp
  · have hg : getGroup (organizeFiles batch).2 name ≠ [] := by
      rw [getGroup_dyn_eq]; exact h
    have hmem : name ∈ (organizeFiles batch).2.map Prod.fst := by
      by_contra hnm
      exact hg (getGroup_eq_nil_of_not_mem _ _ hnm)
    simp only [classify]
    rw [getDyn_applyDynGroups _ _ _ hmem, getGroup_dyn_eq]

/-- Witness for C5 at a concrete batch with one file under the dynamic
name `gst`. -/
theorem claim_C5_dynamic_files_witness :
    ((classify cBatchMixed []).documents.filter
        (fun d => d.type == "Dynamic: " ++ "gst") =
      (dynFilesFor cBatchMixed "gst").map (mkDoc ("Dynamic: " ++ "gst"))) ∧
    getDyn (classify cBatchMixed []).dynFields "gst" =
      some (.files ((dynFilesFor cBatchMixed "gst").map fileRefOf)) :=
  claim_C5_dynamic_files cBatchMixed [] "gst" (by decide)

/-- C7 counterexample: with dynamic field names `"2"` then `"1"` (array
indices), `Object.keys` enumerates them numerically, so the produced
documents are not in first-encounter order as the claim states. -/
theorem claim_C7_document_order_cex :
    (classify cBatchIdx []).documents ≠ claimedDocs cBatchIdx ∧
    (classify cBatchIdx []).documents.map (fun d => d.type) =
      ["Dynamic: " ++ "1", "Dynamic: " ++ "2"] ∧
    (claimedDocs cBatchIdx).map (fun d => d.type) =
      ["Dynamic: " ++ "2", "Dynamic: " ++ "1"] := by
  refine ⟨?_, ?_, ?_⟩ <;> decide

/-- C7 (amended): the documents are ordered fixed groups (ID, Address,
Income, Bank Statement, Other), then the selfie, then the dynamic groups —
the dynamic groups in first-encounter order provided none of their names
is an ECMAScript array index (integer-like names are enumerated first, in
ascending numeric order). -/
theorem claim_C7_document_order (batch : List UFile)
    (dfields : List (String × DynVal))
    (h : ∀ k ∈ (organizeFiles batch).2.map Prod.fst, isArrayIndex k = false) :
    (classify batch dfields).documents = claimedDocs batch := by
  have hkeys : jsObjectKeys ((organizeFiles batch).2.map Prod.fst) =
      (organizeFiles batch).2.map Prod.fst := by
    unfold jsObjectKeys sortIdxKeys
    rw [List.filter_eq_nil_iff.mpr (fun a ha => by simp [h a ha]),
      List.filter_eq_self.mpr (fun a ha => by simp [h a ha])]
    rfl
  have hdyn : dynamicDocs (organizeFiles batch).2 =
      dynamicDocsClaimed (organizeFiles batch).2 := by
    unfold dynamicDocs dynamicDocsClaimed
    rw [hkeys]
  simp only [classify, claimedDocs]
  rw [hdyn]

/-- Witness for C7 with a non-numeric dynamic name. -/
theorem claim_C7_document_order_witness :
    (∀ k ∈ (organizeFiles cBatchMixed).2.map Prod.fst, isArrayIndex k = false) ∧
    (classify cBatchMixed []).documents = claimedDocs cBatchMixed :=
  ⟨by decide, claim_C7_document_order cBatchMixed [] (by decide)⟩

/-- C4 counterexample: a submission whose notification dispatch fails (here:
SMTP environment unset, send rejected) still answers 201/success — the
dispatch failure is returned as a value and ignored by the route. -/
theorem claim_C4_notification_cex :
    (sendEmail cEnvUnset (.errored "connection refused")).success = false ∧
    handleSubmit cJs cEnvUnset (.errored "connection refused") cInpValid =
      { status := 201, success := true,
        message := "Application submitted successfully" } := by
  refine ⟨?_, ?_⟩ <;> decide

/-- C4 (amended): `sendEmail` reports every dispatch failure as a value
(`success: false`) and never throws; the route discards that value, so the
submission response is independent of the notification outcome, and a
persisted submission always answers 201/success. -/
theorem claim_C4_notification (js : JsPrims) :
    (∀ env m, (sendEmail env (.errored m)).success = false) ∧
    (∀ env outcome env2 outcome2 inp,
      handleSubmit js env outcome inp = handleSubmit js env2 outcome2 inp) ∧
    (∀ env outcome inp r, submitCore js inp = .ok r →
      handleSubmit js env outcome inp =
        { status := 201, success := true,
          message := "Application submitted successfully" }) := by
  refine ⟨?_, ?_, ?_⟩
  · intro env m
    unfold sendEmail
    by_cases h : preflightOk env = true <;> simp [h]
  · intro env o env2 o2 inp
    unfold handleSubmit
    cases submitCore js inp <;> rfl
  · intro env o inp r h
    unfold handleSubmit
    rw [h]

/-- Witness for C4 at a concrete, fully valid submission. -/
theorem claim_C4_notification_witness :
    handleSubmit cJs cEnvOk (.sent "msg-1") cInpValid =
      { status := 201, success := true,
        message := "Application submitted successfully" } :=
  (claim_C4_notification cJs).2.2 cEnvOk (.sent "msg-1") cInpValid cRecValid rfl

/-- C1: on every successful submission with integer tenure `n`, the
persisted EMI is `round(P·r·(1+r)^n/((1+r)^n−1))` for monthly rate
`r = R/100/12` when `r > 0`, and `0` when `r = 0`; in particular the EMI
for P = 100000, R = 12, n = 12 is 8885.  `Math.pow` is assumed to agree
with exact powers at natural exponents. -/
theorem claim_C1_emi (js : JsPrims)
    (hpow : ∀ (x : ℚ) (k : ℕ), js.pow x ((k : ℕ) : ℚ) = x ^ k) :
    (∀ inp rec (n : ℕ), submitCore js inp = .ok rec →
      rec.loanDetails.loanTenure = (n : ℚ) →
      ((0 < rec.loanDetails.interestRate / 100 / 12 →
        rec.loanDetails.emi =
          round (rec.loanDetails.loanAmount *
              (rec.loanDetails.interestRate / 100 / 12) *
              (1 + rec.loanDetails.interestRate / 100 / 12) ^ n /
            ((1 + rec.loanDetails.interestRate / 100 / 12) ^ n - 1))) ∧
       (rec.loanDetails.interestRate / 100 / 12 = 0 →
        rec.loanDetails.emi = 0))) ∧
    emiOf js 100000 12 12 = 8885 := by
  constructor
  · intro inp rec n hok htn
    obtain ⟨loan, A, T, et, mi, _, _, _, hrec⟩ := submitCore_ok_inv js inp rec hok
    subst hrec
    have htn' : T = (n : ℚ) := htn
    constructor
    · intro hpos
      show emiOf js A T (resolveAnnualRate loan) =
        round (A * (resolveAnnualRate loan / 100 / 12) *
            (1 + resolveAnnualRate loan / 100 / 12) ^ n /
          ((1 + resolveAnnualRate loan / 100 / 12) ^ n - 1))
      have hp : js.pow (1 + resolveAnnualRate loan / 100 / 12) T =
          (1 + resolveAnnualRate loan / 100 / 12) ^ n := by
        rw [htn']; exact hpow _ n
      simp only [emiOf]
      rw [if_pos hpos, hp]
    · intro hz
      show emiOf js A T (resolveAnnualRate loan) = 0
      simp only [emiOf]
      rw [hz]
      simp
  · have h12 : js.pow (1 + (12 : ℚ) / 100 / 12) 12 =
        (1 + (12 : ℚ) / 100 / 12) ^ (12 : ℕ) := by
      have h := hpow (1 + (12 : ℚ) / 100 / 12) 12
      rwa [Nat.cast_ofNat] at h
    simp only [emiOf]
    rw [if_pos (show (0 : ℚ) < 12 / 100 / 12 by norm_num), h12]
    norm_num [round_eq, Int.floor_eq_iff]

/-- Witness for C1: the concrete EMI value under exact-power `Math.pow`. -/
theorem claim_C1_emi_witness : emiOf wJs 100000 12 12 = 8885 :=
  (claim_C1_emi wJs (fun _ _ => rfl)).2

/-- C3 counterexample: for a submission whose loan amount is non-positive
(−5) and whose loan tenure is non-numeric (`"abc"`), the handler returns
the loan-tenure message, not the loan-amount message the claim's rule
order dictates. -/
theorem claim_C3_validation_order_cex :
    errPart (submitCore cJs cInpOrder) ≠
      firstFailing (specCheckList cJs cInpOrder) ∧
    errPart (submitCore cJs cInpOrder) =
      some ⟨400, "Loan tenure must be a valid number. Received: abc"⟩ ∧
    firstFailing (specCheckList cJs cInpOrder) =
      some ⟨400, "Loan amount must be greater than 0. Received: ?"⟩ := by
  refine ⟨?_, ?_, ?_⟩ <;> decide

/-- C3 (amended): the validator enforces the checks in the interleaved
order the code runs them — loan reference; loanDetails non-empty; amount
present; tenure present; amount numeric/finite; tenure numeric/finite;
amount positive; tenure positive; employment type; monthly income — and
the first violated check in that order determines the error; so a
non-positive amount with a non-numeric tenure gets the tenure message. -/
theorem claim_C3_validation_order (js : JsPrims) (inp : SubmitInput) :
    errPart (submitCore js inp) = firstFailing (checkList js inp) := by
  unfold submitCore checkList
  cases hv : inp.loanIdValid
  · simp [firstFailing, errPart]
  · cases hl : inp.loan
    · simp [firstFailing, errPart]
    · rename_i loan
      cases hr : inp.loanDetails.rejected
      · cases ha : (inp.loanDetails.amount.coalesce inp.loanDetails.principal).isAbsent
        · cases ht : (inp.loanDetails.tenure.coalesce inp.loanDetails.tenureMonths).isAbsent
          · cases han : toNumber js
                (inp.loanDetails.amount.coalesce inp.loanDetails.principal) <;>
              cases htn : toNumber js
                (inp.loanDetails.tenure.coalesce inp.loanDetails.tenureMonths)
            case fin.fin q q2 =>
              by_cases hq : q ≤ 0
              · simp [validateAmountTenure, validateEmployment, firstFailing,
                  errPart, JsNum.isFinite, JsNum.le0, ha, ht, han, htn, hq]
              · by_cases hq2 : q2 ≤ 0
                · simp [validateAmountTenure, validateEmployment, firstFailing,
                    errPart, JsNum.isFinite, JsNum.le0, ha, ht, han, htn, hq, hq2]
                · cases he : empTypeFails inp.employmentType
                  · cases hi : incomeFails js inp.monthlyIncome
                    · simp [validateAmountTenure, validateEmployment,
                        firstFailing, errPart, JsNum.isFinite, JsNum.le0,
                        ha, ht, han, htn, hq, hq2, he, hi]
                    · simp [validateAmountTenure, validateEmployment,
                        firstFailing, errPart, JsNum.isFinite, JsNum.le0,
                        ha, ht, han, htn, hq, hq2, he, hi]
                  · simp [validateAmountTenure, validateEmployment,
                      firstFailing, errPart, JsNum.isFinite, JsNum.le0,
                      ha, ht, han, htn, hq, hq2, he]
            all_goals
              simp [validateAmountTenure, validateEmployment, firstFailing,
                errPart, JsNum.isFinite, JsNum.le0, ha, ht, han, htn]
          · simp [validateAmountTenure, validateEmployment, firstFailing,
              errPart, ha, ht]
        · simp [validateAmountTenure, validateEmployment, firstFailing,
            errPart, ha]
      · simp [firstFailing, errPart]

end BeforeSalary
